import Mathlib

/-!
Verification development for `src/search-actions-in-org/index.ts` of the
`hrdtbs/scripts` repository: a shallow embedding of the organization-wide
GitHub Actions usage resolver (Action-Usage Matcher, Workflow Scanner and
Organization Walker) together with theorems about its behaviour.

The network is modelled as an explicit environment (an oracle mapping each
request the code can issue to the response it receives); JavaScript
exceptions are modelled by explicit outcome types mirroring the `try`/`catch`
structure of the source; the unbounded recursion of the Matcher and the
unbounded pagination loop of the Walker are modelled with an explicit fuel
parameter, consumed exactly where the source recurses or loops.
-/

namespace SearchActionsInOrg

/-- Parsed `action.yml` / `action.yaml` definition, restricted to the shape the
resolver reads: `runs.using` (absent when the YAML has no such field) and the
`uses` field of each entry of `runs.steps` (`none` for a step without a `uses`
field; `actionDef?.runs?.steps || []` makes a missing list empty). -/
structure ActionDef where
  usingStr : Option String
  steps : List (Option String)
deriving DecidableEq, Repr

/-- Outcome of looking up `contents/<fileName>` for an action repository and
reading it, as observed by the `try` block at lines 126–155 of the source:
`ok` means `githubRequest` returned 200 and the download + YAML parse
succeeded; `parseFail` means `githubRequest` returned 200 but the follow-up
download or `parseYaml` threw (the thrown message does not contain `"404"`);
`err s` means `githubRequest` threw `GitHub API error: s ...`. -/
inductive FetchOutcome where
  | ok (adef : ActionDef)
  | parseFail
  | err (status : Nat)
deriving DecidableEq, Repr

/-- A `contents` lookup performed by the Matcher: owner, repository name and
file name of the request, in the order the requests are issued. -/
abbrev FetchLog := List (String × String × String)

/-- Instrumented result of one call to `checkActionInUses`: the boolean the
function returns, the ordered list of `contents/<fileName>` lookups it issued,
and how many `console.warn` diagnostics it emitted. -/
structure CheckOut where
  result : Bool
  fetches : FetchLog
  warns : Nat
deriving DecidableEq, Repr

/-- The environment of the Matcher: what `contents/<fileName>` returns for a
given `(actionOwner, actionRepoName, fileName)` triple. -/
abbrev ActionFetcher := String → String → String → FetchOutcome

/-- JS `s.startsWith(p)` as a list-of-characters computation. -/
def startsWithStr (p s : String) : Bool := p.data.isPrefixOf s.data

/-- JS `usesValue === targetAction || usesValue.match(new RegExp("^" + escapeRegExp(targetAction) + "@"))`
(lines 99–102): `escapeRegExp` makes the target a regex literal, so the regex
test is exactly "starts with `target` followed by `@`". -/
def directMatch (target uses : String) : Bool :=
  uses == target || startsWithStr (target ++ "@") uses

/-- JS `usesValue.split("@")[0]` (line 115): the characters before the first
`@`, or the whole string when there is none. -/
def beforeAt (s : String) : String := ⟨s.data.takeWhile (fun c => c ≠ '@')⟩

/-- First component of JS `actionRepo.split("/", 2)` (line 123). -/
def ownerOf (ar : String) : String := ⟨ar.data.takeWhile (fun c => c ≠ '/')⟩

/-- Second component of JS `actionRepo.split("/", 2)` (line 123); when the
string has no `/` the JS value is `undefined`, which the URL template renders
as the text `"undefined"`. -/
def repoNameOf (ar : String) : String :=
  match ar.data.dropWhile (fun c => c ≠ '/') with
  | [] => "undefined"
  | _ :: rest => ⟨rest.takeWhile (fun c => c ≠ '/')⟩

/-- Guard of line 112: `usesValue && usesValue.includes("/") && !usesValue.startsWith("./")`. -/
def remoteGuard (uses : String) : Bool :=
  uses != "" && uses.data.contains '/' && !startsWithStr "./" uses

/-- A `CheckOut` with no match, no fetches and no warnings. -/
def noEffect (b : Bool) : CheckOut := ⟨b, [], 0⟩

/-- The `for (const step of steps)` loop of lines 138–145: for each step with a
truthy `uses`, recursively check it (`recur`), returning `true` as soon as one
matches; fetches and warnings of the performed recursive calls accumulate in
order. -/
def stepsLoop (recur : String → CheckOut) : List (Option String) → CheckOut
  | [] => noEffect false
  | st :: rest =>
    match st with
    | none => stepsLoop recur rest
    | some u =>
      if u == "" then stepsLoop recur rest
      else
        let r := recur u
        if r.result then ⟨true, r.fetches, r.warns⟩
        else
          let r2 := stepsLoop recur rest
          ⟨r2.result, r.fetches ++ r2.fetches, r.warns + r2.warns⟩

/-- The `for (const fileName of ["action.yml", "action.yaml"])` loop of lines
125–156. A thrown `githubRequest` error whose message contains `"404"` (i.e.
status 404) is swallowed silently and the next file is tried; any other thrown
error is logged with `console.warn` and the next file is tried; on a parsed
definition the loop `break`s after the composite check, so a successfully
fetched first file means the second is never requested. -/
def fileLoop (fa : ActionFetcher) (recur : String → CheckOut)
    (owner repoName : String) : List String → CheckOut
  | [] => noEffect false
  | fn :: rest =>
    match fa owner repoName fn with
    | .err s =>
      let r := fileLoop fa recur owner repoName rest
      ⟨r.result, (owner, repoName, fn) :: r.fetches,
        (if s == 404 then 0 else 1) + r.warns⟩
    | .parseFail =>
      let r := fileLoop fa recur owner repoName rest
      ⟨r.result, (owner, repoName, fn) :: r.fetches, 1 + r.warns⟩
    | .ok adef =>
      if adef.usingStr == some "composite" then
        let r := stepsLoop recur adef.steps
        ⟨r.result, (owner, repoName, fn) :: r.fetches, r.warns⟩
      else
        ⟨false, [(owner, repoName, fn)], 0⟩

/-- Body of `checkActionInUses` (lines 93–163). `recur = none` models a
recursion budget of zero: the fetch-and-expand branch is cut off (the source
recursion is unbounded; theorems supply enough fuel for the data at hand). -/
def checkBody (fa : ActionFetcher) (target : String)
    (recur : Option (String → CheckOut)) (uses : String) : CheckOut :=
  if directMatch target uses then noEffect true
  else if startsWithStr "docker://" uses then noEffect false
  else if remoteGuard uses then
    let actionRepo := beforeAt uses
    if startsWithStr "./" actionRepo || startsWithStr "../" actionRepo then
      noEffect false
    else
      match recur with
      | none => noEffect false
      | some recur =>
        fileLoop fa recur (ownerOf actionRepo) (repoNameOf actionRepo)
          ["action.yml", "action.yaml"]
  else noEffect false

/-- `checkActionInUses` (lines 93–163) with an explicit fuel bounding the
composite-expansion depth; fuel is consumed only when the function recurses
into a fetched composite definition's steps. -/
def checkActionInUses (fa : ActionFetcher) (target : String) :
    Nat → String → CheckOut
  | 0 => checkBody fa target none
  | f + 1 => checkBody fa target (some (fun u => checkActionInUses fa target f u))

/-- One step of a workflow job: its optional `uses` field. -/
structure Step where
  uses : Option String
deriving DecidableEq, Repr

/-- One job of a workflow: its optional job-level `uses` field (a reusable
workflow call) and its (possibly empty) list of steps (`jobData.steps` absent
models as `[]`). -/
structure Job where
  uses : Option String
  steps : List Step
deriving DecidableEq, Repr

/-- A parsed workflow file, restricted to the shape the scanner reads:
`workflow.jobs` in iteration order (`Object.entries`); an absent or falsy
`jobs` models as `[]`. -/
structure Workflow where
  jobs : List Job
deriving DecidableEq, Repr

/-- The result of scanning one workflow file (interface `ScanResult`,
lines 20–23). -/
structure ScanResult where
  direct : Bool
  indirect : List String
deriving DecidableEq, Repr

/-- JS `s.endsWith(p)` as a list-of-characters computation. -/
def endsWithStr (p s : String) : Bool := p.data.isSuffixOf s.data

/-- An entry of the `.github/workflows` directory listing: its `name` and
`path` fields. -/
structure FileEntry where
  name : String
  path : String
deriving DecidableEq, Repr

/-- One repository as returned by `GET /orgs/{org}/repos`. `full_name` is the
field the walker reads. `broken` models a repository entry whose
per-repository processing throws before and outside the
workflow-directory-listing `try` (e.g. malformed API data while interpolating
the entry at line 284): the outer `catch` at lines 339–344 handles exactly
these. -/
structure Repo where
  full_name : String
  broken : Bool
deriving DecidableEq, Repr

/-- The full environment of one scan: the response of each request the
resolver can issue.
  * `repoPage p`: response of `GET /orgs/{org}/repos?per_page=100&page=p`
    (`Except.error s` is a thrown `GitHub API error: s ...`);
  * `listWorkflows fullName`: response of listing
    `repos/{fullName}/contents/.github/workflows` (`Except.error s` likewise);
  * `workflowFetch fullName path`: the parsed workflow, or `Except.error ()`
    when fetching, base64-decoding or YAML-parsing that file throws;
  * `fetchAction`: the Matcher's oracle. -/
structure Env where
  repoPage : Nat → Except Nat (List Repo)
  listWorkflows : String → Except Nat (List FileEntry)
  workflowFetch : String → String → Except Unit Workflow
  fetchAction : ActionFetcher

/-- Body of the step loop at lines 208–219: a matching step sets the direct
flag, a non-matching step whose `uses` contains `/` and does not start with
`./` is appended to the indirect collection, any other step changes nothing.
The accumulator is the pair (directUsage, indirectUsage). -/
def stepFold (check : String → Bool) (acc : Bool × List String) (st : Step) :
    Bool × List String :=
  match st.uses with
  | some u =>
    if u != "" then
      if check u then (true, acc.2)
      else if u.data.contains '/' && !startsWithStr "./" u then
        (acc.1, acc.2 ++ [u])
      else acc
    else acc
  | none => acc

/-- Body of the job loop at lines 195–221: a job-level `uses` that matches
sets the direct flag (lines 199–204), then the job's steps are scanned. -/
def jobFold (check : String → Bool) (acc : Bool × List String) (job : Job) :
    Bool × List String :=
  let acc1 : Bool × List String :=
    match job.uses with
    | some u => if u != "" && check u then (true, acc.2) else acc
    | none => acc
  job.steps.foldl (stepFold check) acc1

/-- `scanWorkflowFile` (lines 168–234): fetch, decode and parse one workflow
file; on any exception while doing so, return `{direct: false, indirect: []}`
(lines 228–233). On success iterate jobs and steps, marking `direct` when the
Matcher matches a job-level or step-level `uses` and appending to `indirect`
every step-level `uses` that does not match but contains `/` and does not
start with `./` (lines 194–221). -/
def scanWorkflowFile (env : Env) (fuel : Nat) (targetAction repoFullName
    workflowPath : String) : ScanResult :=
  match env.workflowFetch repoFullName workflowPath with
  | .error _ => ⟨false, []⟩
  | .ok wf =>
    let check := fun u => (checkActionInUses env.fetchAction targetAction fuel u).result
    let out := wf.jobs.foldl (jobFold check) ((false, []) : Bool × List String)
    ⟨out.1, out.2⟩

/-- The `summary` object of `ScanResults` (lines 29–36). -/
structure Summary where
  totalRepositories : Nat
  repositoriesScanned : Nat
  repositoriesWithDirectUsage : Nat
  repositoriesWithIndirectUsage : Nat
  totalDirectUsages : Nat
  totalIndirectUsages : Nat
deriving DecidableEq, Repr

/-- A `{repo, workflow}` record (interface `WorkflowUsage`, lines 15–18). -/
structure WorkflowUsage where
  repo : String
  workflow : String
deriving DecidableEq, Repr

/-- The `errors` object of `ScanResults` (lines 39–42). -/
structure ErrorBuckets where
  accessErrors : List String
  scanErrors : List String
deriving DecidableEq, Repr

/-- The aggregate report (interface `ScanResults`, lines 25–43).
`indirectUsages` is a JS object keyed by reference string; it is modelled as
an association list in key-insertion order. -/
structure ScanResults where
  organization : String
  timestamp : String
  targetAction : String
  summary : Summary
  directUsages : List WorkflowUsage
  indirectUsages : List (String × List WorkflowUsage)
  errors : ErrorBuckets
deriving DecidableEq, Repr

/-- Truthiness test of `results.indirectUsages[indirectAction]` (line 317):
whether the key is already present (an empty array is truthy in JS, so
presence is the right test after initialisation with `[]`). -/
def hasKey (m : List (String × List WorkflowUsage)) (key : String) : Bool :=
  m.any (fun kv => kv.1 == key)

/-- `results.indirectUsages[indirectAction].push(usage)` after initialising a
missing key with `[]` (lines 317–324). -/
def pushIndirect (m : List (String × List WorkflowUsage)) (key : String)
    (u : WorkflowUsage) : List (String × List WorkflowUsage) :=
  if hasKey m key then
    m.map (fun kv => if kv.1 == key then (kv.1, kv.2 ++ [u]) else kv)
  else m ++ [(key, [u])]

/-- Merging of one indirect reference into the aggregate (lines 316–326):
initialise a missing key (counting it as a new "repository with indirect
usage"), push the usage record and bump the total. -/
def mergeIndirect (fullName path : String) (a : ScanResults) (ia : String) :
    ScanResults :=
  let isNew := !hasKey a.indirectUsages ia
  { a with
    indirectUsages := pushIndirect a.indirectUsages ia ⟨fullName, path⟩,
    summary := { a.summary with
      repositoriesWithIndirectUsage :=
        a.summary.repositoriesWithIndirectUsage + (if isNew then 1 else 0),
      totalIndirectUsages := a.summary.totalIndirectUsages + 1 } }

/-- Recording of one direct usage (lines 306–313): append the
`{repo, workflow}` record and bump both the per-occurrence "repositories with
direct usage" counter and the total. -/
def directUpdate (fullName path : String) (a : ScanResults) : ScanResults :=
  { a with
    directUsages := a.directUsages ++ [⟨fullName, path⟩],
    summary := { a.summary with
      repositoriesWithDirectUsage := a.summary.repositoriesWithDirectUsage + 1,
      totalDirectUsages := a.summary.totalDirectUsages + 1 } }

/-- Processing of one directory entry (lines 292–327): scan it when its name
ends in `.yml` or `.yaml`, then merge the `ScanResult` into the running
aggregate exactly as the source does (note the per-occurrence increments of
`repositoriesWithDirectUsage` and the key-novelty increment of
`repositoriesWithIndirectUsage`). -/
def processEntry (env : Env) (fuel : Nat) (targetAction fullName : String)
    (acc : ScanResults) (entry : FileEntry) : ScanResults :=
  if endsWithStr ".yml" entry.name || endsWithStr ".yaml" entry.name then
    let sres := scanWorkflowFile env fuel targetAction fullName entry.path
    let acc1 := if sres.direct then directUpdate fullName entry.path acc else acc
    sres.indirect.foldl (mergeIndirect fullName entry.path) acc1
  else acc

/-- Processing of one repository (lines 282–345). A `broken` entry throws at
the outer level and lands in `scanErrors`. Otherwise the inner `try` lists the
workflow directory: a thrown 404 is logged and ignored, any other thrown
status appends the repository to `accessErrors`, and a successful listing is
scanned entry by entry. -/
def processRepo (env : Env) (fuel : Nat) (targetAction : String)
    (acc : ScanResults) (repo : Repo) : ScanResults :=
  if repo.broken then
    { acc with errors :=
      { acc.errors with scanErrors := acc.errors.scanErrors ++ [repo.full_name] } }
  else
    match env.listWorkflows repo.full_name with
    | .error s =>
      if s == 404 then acc
      else
        { acc with errors :=
          { acc.errors with
            accessErrors := acc.errors.accessErrors ++ [repo.full_name] } }
    | .ok entries =>
      entries.foldl (processEntry env fuel targetAction repo.full_name) acc

/-- `results.summary.repositoriesScanned = page` (line 347): after processing
a non-empty page, the source stores the page counter — not a repository
count — in the `repositoriesScanned` field. -/
def pageUpdate (page : Nat) (r : ScanResults) : ScanResults :=
  { r with summary := { r.summary with repositoriesScanned := page } }

/-- The pagination loop of lines 269–349, with fuel bounding the number of
iterations (the source loop is unbounded until an empty page). Returns the
final aggregate (`none` when a repository-page request throws, which the
function-level `catch` turns into a `null` result) together with the ordered
list of page numbers that were requested. -/
def scanLoop (env : Env) (fuel : Nat) (targetAction : String) :
    Nat → Nat → ScanResults → Option ScanResults × List Nat
  | 0, _, acc => (some acc, [])
  | f + 1, page, acc =>
    match env.repoPage page with
    | .error _ => (none, [page])
    | .ok repos =>
      if repos.isEmpty then (some acc, [page])
      else
        let acc3 := pageUpdate page (repos.foldl (processRepo env fuel targetAction) acc)
        let next := scanLoop env fuel targetAction f (page + 1) acc3
        (next.1, page :: next.2)

/-- The initial `results` object (lines 246–264); `now` models
`new Date().toISOString()`. -/
def initResults (orgName targetAction now : String) : ScanResults :=
  { organization := orgName
    timestamp := now
    targetAction := targetAction
    summary := ⟨0, 0, 0, 0, 0, 0⟩
    directUsages := []
    indirectUsages := []
    errors := ⟨[], []⟩ }

/-- `scanOrganization` (lines 239–358): run the pagination loop from page 1
over the fresh aggregate, then set `totalRepositories` from
`repositoriesScanned` (line 351); `none` models the `null` returned when a
repository-page request throws. -/
def scanOrganization (env : Env) (fuel : Nat) (orgName targetAction now : String) :
    Option ScanResults :=
  match (scanLoop env fuel targetAction fuel 1 (initResults orgName targetAction now)).1 with
  | none => none
  | some r =>
    some { r with summary :=
      { r.summary with totalRepositories := r.summary.repositoriesScanned } }

/-- The ordered list of repository-page numbers requested by one run of
`scanOrganization`. -/
def requestedPages (env : Env) (fuel : Nat) (orgName targetAction now : String) :
    List Nat :=
  (scanLoop env fuel targetAction fuel 1 (initResults orgName targetAction now)).2

/-- A composite-action chain of depth `n` under fetcher `fa`: `Chain fa target
uses n` says that `uses` reaches `target` after exactly `n` composite
expansions, each intermediate level being a remote reference whose repository
serves an `action.yml` that is a composite action with a single step whose
`uses` is the next link, and only the deepest link referencing the target
(directly or as `target@ref`). -/
inductive Chain (fa : ActionFetcher) (target : String) : String → Nat → Prop
  | base (uses : String) (h : directMatch target uses = true) :
      Chain fa target uses 0
  | cons (uses next : String) (n : Nat)
      (hdock : startsWithStr "docker://" uses = false)
      (hrg : remoteGuard uses = true)
      (hloc1 : startsWithStr "./" (beforeAt uses) = false)
      (hloc2 : startsWithStr "../" (beforeAt uses) = false)
      (hfetch : fa (ownerOf (beforeAt uses)) (repoNameOf (beforeAt uses))
        "action.yml" = .ok ⟨some "composite", [some next]⟩)
      (hne : next ≠ "")
      (hnext : Chain fa target next n) :
      Chain fa target uses (n + 1)

/-- The filter the Workflow Scanner actually applies to a step when deciding
whether its `uses` goes into the indirect collection (lines 209–218): a truthy
`uses` that the Matcher does not match and that contains `/` and does not
start with `./`. -/
def stepIndirectKeep (check : String → Bool) (st : Step) : Option String :=
  match st.uses with
  | some u =>
    if u != "" && !check u && (u.data.contains '/' && !startsWithStr "./" u) then
      some u
    else none
  | none => none

/-- Overwriting of the `timestamp` field of a report, leaving every other
field unchanged; used to state that two runs differ only in their timestamp. -/
def setTime (t : String) (r : ScanResults) : ScanResults := { r with timestamp := t }

/-- A fetcher that answers every `contents` lookup with a thrown 404. -/
def fa404 : ActionFetcher := fun _ _ _ => .err 404

/-- A fetcher serving a two-level composite chain: `a/one` is a composite
action whose single step uses `b/two@v3`, and `b/two` is a composite action
whose single step uses `tgt/act@v1`; everything else 404s. -/
def chainFA : ActionFetcher := fun o r f =>
  if o = "a" && r = "one" && f = "action.yml" then
    .ok ⟨some "composite", [some "b/two@v3"]⟩
  else if o = "b" && r = "two" && f = "action.yml" then
    .ok ⟨some "composite", [some "tgt/act@v1"]⟩
  else .err 404

/-- A fetcher whose `action.yml` lookup fails with a non-404 status for the
`w/err` repository and 404s everywhere else. -/
def warnFA : ActionFetcher := fun o _ f =>
  if o = "w" && f = "action.yml" then .err 500 else .err 404

/-- One-repository organization: page 1 holds a single repository (fewer than
the requested page size of 100), page 2 is empty; the repository has no
workflow directory. -/
def envOneRepo : Env :=
  { repoPage := fun p => if p = 1 then .ok [⟨"acme/solo", false⟩] else .ok []
    listWorkflows := fun _ => .error 404
    workflowFetch := fun _ _ => .error ()
    fetchAction := fa404 }

/-- Two-repository organization: page 1 holds two repositories, page 2 is
empty; neither repository has a workflow directory. -/
def envTwoRepos : Env :=
  { repoPage := fun p => if p = 1 then .ok [⟨"acme/app", false⟩, ⟨"acme/lib", false⟩] else .ok []
    listWorkflows := fun _ => .error 404
    workflowFetch := fun _ _ => .error ()
    fetchAction := fa404 }

/-- Environment for per-repository error handling: `acme/lib` has no workflow
directory (404), listing `acme/priv` fails with 403, and every workflow fetch
fails. -/
def envErrors : Env :=
  { repoPage := fun p => if p = 1 then .ok [⟨"acme/lib", false⟩, ⟨"acme/priv", false⟩] else .ok []
    listWorkflows := fun n => if n = "acme/priv" then .error 403 else .error 404
    workflowFetch := fun _ _ => .error ()
    fetchAction := fa404 }

/-- Environment whose single repository has one workflow with one job of three
steps: a docker reference, a local reference and a remote non-target
reference. -/
def envDockerWf : Env :=
  { repoPage := fun p => if p = 1 then .ok [⟨"acme/app", false⟩] else .ok []
    listWorkflows := fun n =>
      if n = "acme/app" then .ok [⟨"ci.yml", ".github/workflows/ci.yml"⟩] else .error 404
    workflowFetch := fun n p =>
      if n = "acme/app" && p = ".github/workflows/ci.yml" then
        .ok ⟨[⟨none, [⟨some "docker://alpine:3"⟩, ⟨some "./local/action"⟩,
          ⟨some "other/thing@v1"⟩]⟩]⟩
      else .error ()
    fetchAction := fa404 }

theorem checkActionInUses_zero (fa : ActionFetcher) (target uses : String) :
    checkActionInUses fa target 0 uses = checkBody fa target none uses := rfl

theorem checkActionInUses_succ (fa : ActionFetcher) (target : String) (f : Nat)
    (uses : String) :
    checkActionInUses fa target (f + 1) uses =
      checkBody fa target (some (fun u => checkActionInUses fa target f u)) uses := rfl

/-- Claim C5: for every `uses` string that equals the target action exactly,
or that consists of the target followed by an `@` character (a literal
string/prefix comparison), the Matcher returns `true` immediately and
performs no HTTP fetch. -/
theorem matcher_direct_match_true_no_fetch
    (fa : ActionFetcher) (target : String) (fuel : Nat) (uses : String)
    (h : uses = target ∨ startsWithStr (target ++ "@") uses = true) :
    checkActionInUses fa target fuel uses = ⟨true, [], 0⟩ := by
  have hd : directMatch target uses = true := by
    rcases h with h | h
    · simp [directMatch, h]
    · simp [directMatch, h]
  cases fuel <;>
    simp [checkActionInUses_zero, checkActionInUses_succ, checkBody, hd, noEffect]

/-- Witness for C5: the versioned reference `actions/checkout@v4` matches the
target `actions/checkout` with no fetch. -/
theorem matcher_direct_match_true_no_fetch_witness :
    checkActionInUses fa404 "actions/checkout" 3 "actions/checkout@v4" =
      ⟨true, [], 0⟩ :=
  matcher_direct_match_true_no_fetch fa404 "actions/checkout" 3
    "actions/checkout@v4" (Or.inr rfl)

theorem isPrefixOf_dotdotslash_takeWhile (l : List Char)
    (h : ['.', '.', '/'].isPrefixOf l = true) :
    ['.', '.', '/'].isPrefixOf (l.takeWhile (fun c => c ≠ '@')) = true := by
  match l with
  | [] => simp [List.isPrefixOf] at h
  | [c1] => simp [List.isPrefixOf] at h
  | [c1, c2] => simp [List.isPrefixOf] at h
  | c1 :: c2 :: c3 :: t =>
    simp [List.isPrefixOf] at h
    obtain ⟨h1, h2, h3⟩ := h
    subst h1; subst h2; subst h3
    simp +decide [List.takeWhile, List.isPrefixOf]

theorem startsWith_dotdotslash_beforeAt (s : String)
    (h : startsWithStr "../" s = true) :
    startsWithStr "../" (beforeAt s) = true := by
  have h' : (['.', '.', '/'] : List Char).isPrefixOf s.data = true := h
  exact isPrefixOf_dotdotslash_takeWhile s.data h'

/-- Claim C6: for every `uses` string that does not equal the target and does
not start with `target@`, and that either begins with `docker://`, begins with
`./` or `../`, or contains no `/` character, the Matcher returns `false` and
performs no HTTP fetch. -/
theorem matcher_skip_reference_false_no_fetch
    (fa : ActionFetcher) (target : String) (fuel : Nat) (uses : String)
    (h1 : uses ≠ target)
    (h2 : startsWithStr (target ++ "@") uses = false)
    (h3 : startsWithStr "docker://" uses = true ∨ startsWithStr "./" uses = true ∨
      startsWithStr "../" uses = true ∨ uses.data.contains '/' = false) :
    checkActionInUses fa target fuel uses = ⟨false, [], 0⟩ := by
  have hd : directMatch target uses = false := by
    simp [directMatch, h2, h1]
  rcases h3 with hdk | hl | hl2 | hns
  · cases fuel <;>
      simp [checkActionInUses_zero, checkActionInUses_succ, checkBody, hd, hdk,
        noEffect]
  · have hrg : remoteGuard uses = false := by simp [remoteGuard, hl]
    cases fuel <;>
      simp [checkActionInUses_zero, checkActionInUses_succ, checkBody, hd, hrg,
        noEffect]
  · have hba : startsWithStr "../" (beforeAt uses) = true :=
      startsWith_dotdotslash_beforeAt uses hl2
    cases hrg : remoteGuard uses <;> cases fuel <;>
      simp [checkActionInUses_zero, checkActionInUses_succ, checkBody, hd, hrg,
        hba, noEffect]
  · have hrg : remoteGuard uses = false := by
      unfold remoteGuard
      rw [hns]
      simp
    cases fuel <;>
      simp [checkActionInUses_zero, checkActionInUses_succ, checkBody, hd, hrg,
        noEffect]

/-- Witness for C6: the local reference `./local/action` does not match the
target `actions/checkout` and yields `false` with no fetch. -/
theorem matcher_skip_reference_false_no_fetch_witness :
    checkActionInUses fa404 "actions/checkout" 3 "./local/action" =
      ⟨false, [], 0⟩ :=
  matcher_skip_reference_false_no_fetch fa404 "actions/checkout" 3
    "./local/action" (by decide) rfl (Or.inr (Or.inl rfl))

/-- Claim C1: for every composite-action chain of finite depth `n` in which
only the deepest composite action's step references the target, the Matcher
returns `true` for the outermost reference, provided the recursion budget
covers the depth of the chain (the source recursion is unbounded, so any
terminating run has such a budget). -/
theorem matcher_composite_chain_true
    (fa : ActionFetcher) (target uses : String) (n fuel : Nat)
    (hc : Chain fa target uses n) (hf : n ≤ fuel) :
    (checkActionInUses fa target fuel uses).result = true := by
  induction hc generalizing fuel with
  | base u h =>
    cases fuel <;>
      simp [checkActionInUses_zero, checkActionInUses_succ, checkBody, h, noEffect]
  | cons u next m hdock hrg hloc1 hloc2 hfetch hne hnext ih =>
    match fuel, hf with
    | f + 1, hf =>
      have hf' : m ≤ f := Nat.succ_le_succ_iff.mp hf
      have hrec := ih f hf'
      by_cases hdm : directMatch target u = true
      · simp [checkActionInUses_succ, checkBody, hdm, noEffect]
      · have hdm' : directMatch target u = false := Bool.eq_false_iff.mpr hdm
        simp [checkActionInUses_succ, checkBody, hdm', hdock, hrg, hloc1, hloc2,
          fileLoop, hfetch, stepsLoop, hne, hrec]

/-- Witness for C1: a chain of depth 2 (`a/one@v5` → `b/two@v3` →
`tgt/act@v1`) where only the deepest step references the target `tgt/act`. -/
theorem matcher_composite_chain_true_witness :
    (checkActionInUses chainFA "tgt/act" 2 "a/one@v5").result = true :=
  matcher_composite_chain_true chainFA "tgt/act" "a/one@v5" 2 2
    (Chain.cons "a/one@v5" "b/two@v3" 1 (by decide) (by decide) (by decide)
      (by decide) (by decide) (by decide)
      (Chain.cons "b/two@v3" "tgt/act@v1" 0 (by decide) (by decide) (by decide)
        (by decide) (by decide) (by decide)
        (Chain.base "tgt/act@v1" (by decide)))) (by decide)

/-- Claim C7: when the Matcher attempts composite-action resolution for a
remote reference, it fetches `action.yml` then `action.yaml` in that order and
uses the first file found; if both return 404 it returns `false` without
logging anything; a non-404 failure on `action.yml` is logged as one warning,
swallowed, and the resolution continues with `action.yaml`; a successful
`action.yml` fetch means `action.yaml` is never requested (non-composite
definitions yield `false`, composite definitions yield the result of the step
recursion). The matcher is a total function: it never raises out of its
recursion. -/
theorem matcher_fetch_error_policy
    (fa : ActionFetcher) (target : String) (f : Nat) (uses : String)
    (s : Nat) (adef : ActionDef)
    (hdm : directMatch target uses = false)
    (hdock : startsWithStr "docker://" uses = false)
    (hrg : remoteGuard uses = true)
    (hloc1 : startsWithStr "./" (beforeAt uses) = false)
    (hloc2 : startsWithStr "../" (beforeAt uses) = false) :
    (fa (ownerOf (beforeAt uses)) (repoNameOf (beforeAt uses)) "action.yml" = .err 404 →
     fa (ownerOf (beforeAt uses)) (repoNameOf (beforeAt uses)) "action.yaml" = .err 404 →
      checkActionInUses fa target (f + 1) uses =
        ⟨false, [(ownerOf (beforeAt uses), repoNameOf (beforeAt uses), "action.yml"),
          (ownerOf (beforeAt uses), repoNameOf (beforeAt uses), "action.yaml")], 0⟩) ∧
    (fa (ownerOf (beforeAt uses)) (repoNameOf (beforeAt uses)) "action.yml" = .err s →
     s ≠ 404 →
     fa (ownerOf (beforeAt uses)) (repoNameOf (beforeAt uses)) "action.yaml" = .err 404 →
      checkActionInUses fa target (f + 1) uses =
        ⟨false, [(ownerOf (beforeAt uses), repoNameOf (beforeAt uses), "action.yml"),
          (ownerOf (beforeAt uses), repoNameOf (beforeAt uses), "action.yaml")], 1⟩) ∧
    (fa (ownerOf (beforeAt uses)) (repoNameOf (beforeAt uses)) "action.yml" = .ok adef →
     adef.usingStr ≠ some "composite" →
      checkActionInUses fa target (f + 1) uses =
        ⟨false, [(ownerOf (beforeAt uses), repoNameOf (beforeAt uses), "action.yml")], 0⟩) ∧
    (fa (ownerOf (beforeAt uses)) (repoNameOf (beforeAt uses)) "action.yml" = .ok adef →
     adef.usingStr = some "composite" →
      checkActionInUses fa target (f + 1) uses =
        ⟨(stepsLoop (fun u => checkActionInUses fa target f u) adef.steps).result,
          (ownerOf (beforeAt uses), repoNameOf (beforeAt uses), "action.yml") ::
            (stepsLoop (fun u => checkActionInUses fa target f u) adef.steps).fetches,
          (stepsLoop (fun u => checkActionInUses fa target f u) adef.steps).warns⟩) := by
  refine ⟨fun h1 h2 => ?_, fun h1 hs h2 => ?_, fun h1 hn => ?_, fun h1 hcomp => ?_⟩
  · simp [checkActionInUses_succ, checkBody, hdm, hdock, hrg, hloc1, hloc2,
      fileLoop, h1, h2, noEffect]
  · have hs' : (s == 404) = false := beq_eq_false_iff_ne.mpr hs
    simp [checkActionInUses_succ, checkBody, hdm, hdock, hrg, hloc1, hloc2,
      fileLoop, h1, h2, hs', noEffect]
  · have hn' : (adef.usingStr == some "composite") = false := beq_eq_false_iff_ne.mpr hn
    simp [checkActionInUses_succ, checkBody, hdm, hdock, hrg, hloc1, hloc2,
      fileLoop, h1, hn', noEffect]
  · simp [checkActionInUses_succ, checkBody, hdm, hdock, hrg, hloc1, hloc2,
      fileLoop, h1, hcomp, noEffect]

/-- Witness for C7: `x/y` resolves against a fetcher that 404s both
`action.yml` and `action.yaml`: the Matcher fetches both files in order and
returns `false` with no warnings. -/
theorem matcher_fetch_error_policy_witness :
    checkActionInUses fa404 "t/a" 1 "x/y" =
      ⟨false, [("x", "y", "action.yml"), ("x", "y", "action.yaml")], 0⟩ :=
  (matcher_fetch_error_policy fa404 "t/a" 0 "x/y" 500 ⟨none, []⟩
    rfl rfl rfl rfl rfl).1 rfl rfl

/-- Claim C9: if any unexpected error occurs while fetching, decoding or
parsing one specific workflow file, the Workflow Scanner returns
`{direct: false, indirect: []}` instead of propagating the exception. -/
theorem scanWorkflowFile_error_returns_empty
    (env : Env) (fuel : Nat) (targetAction repoFullName workflowPath : String)
    (h : env.workflowFetch repoFullName workflowPath = .error ()) :
    scanWorkflowFile env fuel targetAction repoFullName workflowPath =
      ⟨false, []⟩ := by
  simp [scanWorkflowFile, h]

/-- Witness for C9: a path whose fetch throws yields the empty result. -/
theorem scanWorkflowFile_error_returns_empty_witness :
    scanWorkflowFile envDockerWf 1 "tgt/act" "acme/app" "nope.yml" =
      ⟨false, []⟩ :=
  scanWorkflowFile_error_returns_empty envDockerWf 1 "tgt/act" "acme/app"
    "nope.yml" rfl

/-- Counterexample to C4 as stated: the Docker-image reference
`docker://alpine:3` (which the Matcher rejects without fetching) IS recorded
in the indirect collection, because the scanner's filter is only "contains `/`
and does not start with `./`" and `docker://alpine:3` contains `/`. -/
theorem scanner_indirect_docker_recorded :
    "docker://alpine:3" ∈
      (scanWorkflowFile envDockerWf 1 "tgt/act" "acme/app"
        ".github/workflows/ci.yml").indirect := by decide

theorem stepFold_snd (check : String → Bool) (steps : List Step) :
    ∀ acc : Bool × List String,
      (List.foldl (stepFold check) acc steps).2 =
        acc.2 ++ steps.filterMap (stepIndirectKeep check) := by
  induction steps with
  | nil => simp
  | cons st rest ih =>
    intro acc
    rw [List.foldl_cons, ih]
    rcases st with ⟨u⟩
    cases u with
    | none => simp [stepFold, stepIndirectKeep]
    | some u =>
      by_cases h1 : u = ""
      · simp [stepFold, stepIndirectKeep, h1]
      · cases h2 : check u
        · cases h3a : u.data.contains '/'
          · have hm := h3a
            simp at hm
            simp [stepFold, stepIndirectKeep, h1, h2, h3a, hm]
          · have hm := h3a
            simp at hm
            cases h3b : startsWithStr "./" u
            · simp [stepFold, stepIndirectKeep, h1, h2, h3a, hm, h3b]
            · simp [stepFold, stepIndirectKeep, h1, h2, h3a, hm, h3b]
        · simp [stepFold, stepIndirectKeep, h1, h2]

theorem jobFold_snd (check : String → Bool) (job : Job)
    (acc : Bool × List String) :
    (jobFold check acc job).2 =
      acc.2 ++ job.steps.filterMap (stepIndirectKeep check) := by
  rcases job with ⟨ju, steps⟩
  cases ju with
  | none => simp [jobFold, stepFold_snd]
  | some u =>
    cases hb : u != "" && check u <;> simp [jobFold, hb, stepFold_snd]

theorem jobsFold_snd (check : String → Bool) (jobs : List Job) :
    ∀ acc : Bool × List String,
      (List.foldl (jobFold check) acc jobs).2 =
        acc.2 ++ jobs.flatMap (fun j => j.steps.filterMap (stepIndirectKeep check)) := by
  induction jobs with
  | nil => simp
  | cons j rest ih =>
    intro acc
    rw [List.foldl_cons, ih, jobFold_snd]
    simp

/-- Claim C4 as amended: for a workflow file that fetches and parses
successfully, the indirect collection is exactly, in encounter order, the
step-level `uses` values that are truthy, that the Matcher does not match,
that contain a `/` character and that do not start with `./`. In particular
`docker://…` references (which contain `/`) and `../…` references are
recorded; only `./…` references and slash-free values are excluded, and
job-level `uses` values are never recorded. -/
theorem scanner_indirect_characterization
    (env : Env) (fuel : Nat) (targetAction repoFullName workflowPath : String)
    (wf : Workflow)
    (h : env.workflowFetch repoFullName workflowPath = .ok wf) :
    (scanWorkflowFile env fuel targetAction repoFullName workflowPath).indirect =
      wf.jobs.flatMap (fun j => j.steps.filterMap (stepIndirectKeep
        (fun u => (checkActionInUses env.fetchAction targetAction fuel u).result))) := by
  simp [scanWorkflowFile, h, jobsFold_snd]

/-- Witness for the amended C4: the concrete workflow with a docker step, a
local step and a remote step produces exactly the filtered list. -/
theorem scanner_indirect_characterization_witness :
    (scanWorkflowFile envDockerWf 1 "tgt/act" "acme/app"
        ".github/workflows/ci.yml").indirect =
      (Workflow.mk [⟨none, [⟨some "docker://alpine:3"⟩, ⟨some "./local/action"⟩,
        ⟨some "other/thing@v1"⟩]⟩]).jobs.flatMap
        (fun j => j.steps.filterMap (stepIndirectKeep
          (fun u => (checkActionInUses envDockerWf.fetchAction "tgt/act" 1 u).result))) :=
  scanner_indirect_characterization envDockerWf 1 "tgt/act" "acme/app"
    ".github/workflows/ci.yml" _ rfl

theorem scanLoop_requests_its_page (env : Env) (mf : Nat) (ta : String)
    (f page : Nat) (acc : ScanResults) :
    page ∈ (scanLoop env mf ta (f + 1) page acc).2 := by
  cases h : env.repoPage page with
  | error s => simp [scanLoop, h]
  | ok repos =>
    cases he : repos.isEmpty <;> simp [scanLoop, h, he]

/-- Counterexample to C2 as stated: in `envOneRepo`, page 1 returns a single
repository — fewer than the requested page size of 100 — yet the walker still
issues a request for page 2; the requested pages are `[1, 2]`, so a short page
does not stop pagination. -/
theorem walker_requests_next_page_after_short_page :
    envOneRepo.repoPage 1 = .ok [⟨"acme/solo", false⟩] ∧
      requestedPages envOneRepo 5 "acme" "t/a" "T0" = [1, 2] := by
  constructor
  · rfl
  · rfl

/-- Claim C2 as amended: the walker stops requesting pages exactly when a page
returns an empty repository list; after a page that is non-empty — even one
with fewer than the requested page size of 100 repositories — it always
requests the next page. -/
theorem walker_pagination_stops_only_on_empty_page
    (env : Env) (mf : Nat) (ta : String) (f page : Nat) (acc : ScanResults)
    (repos : List Repo) (h : env.repoPage page = .ok repos) :
    (repos = [] → (scanLoop env mf ta (f + 1) page acc).2 = [page]) ∧
    (repos ≠ [] → (page + 1) ∈ (scanLoop env mf ta (f + 2) page acc).2) := by
  constructor
  · intro he
    subst he
    simp [scanLoop, h]
  · intro hne
    match repos, hne with
    | r :: rs, _ =>
      have hmem := scanLoop_requests_its_page env mf ta f (page + 1)
        (pageUpdate page (List.foldl (processRepo env mf ta) acc (r :: rs)))
      simp [scanLoop, h]
      simpa [scanLoop] using hmem

/-- Witness for the amended C2: applied to the non-empty page 1 of
`envOneRepo`, page 2 is requested. -/
theorem walker_pagination_stops_only_on_empty_page_witness :
    (([⟨"acme/solo", false⟩] : List Repo) = [] →
      (scanLoop envOneRepo 5 "t/a" 4 1 (initResults "acme" "t/a" "T0")).2 = [1]) ∧
    (([⟨"acme/solo", false⟩] : List Repo) ≠ [] →
      2 ∈ (scanLoop envOneRepo 5 "t/a" 5 1 (initResults "acme" "t/a" "T0")).2) :=
  walker_pagination_stops_only_on_empty_page envOneRepo 5 "t/a" 3 1
    (initResults "acme" "t/a" "T0") [⟨"acme/solo", false⟩] rfl

/-- Claim C3 fails on the code (code bug): `envTwoRepos` enumerates two
repositories on page 1, yet the completed report carries
`repositoriesScanned = totalRepositories = 1`, because line 347 stores the
page counter — not a repository count — in `repositoriesScanned` and line 351
copies it into `totalRepositories`. -/
theorem walker_scanned_count_is_page_count :
    envTwoRepos.repoPage 1 = .ok [⟨"acme/app", false⟩, ⟨"acme/lib", false⟩] ∧
      (scanOrganization envTwoRepos 5 "acme" "t/a" "T0").map
        (fun r => (r.summary.repositoriesScanned, r.summary.totalRepositories)) =
        some (1, 1) := by
  constructor
  · rfl
  · rfl

/-- Claim C8: per-repository error handling of the walker. A repository whose
processing throws at the outer level lands exactly once in `scanErrors` and
changes nothing else; a 404 when listing `.github/workflows` changes nothing
at all; a non-404 listing failure appends the repository exactly once to
`accessErrors` and changes nothing else; and in every case the fold continues
with the next repository. -/
theorem walker_repo_error_buckets
    (env : Env) (fuel : Nat) (ta : String) (acc : ScanResults) (repo : Repo)
    (s : Nat) (rest : List Repo) :
    (repo.broken = true →
      processRepo env fuel ta acc repo =
        { acc with errors :=
          { acc.errors with scanErrors := acc.errors.scanErrors ++ [repo.full_name] } }) ∧
    (repo.broken = false → env.listWorkflows repo.full_name = .error 404 →
      processRepo env fuel ta acc repo = acc) ∧
    (repo.broken = false → env.listWorkflows repo.full_name = .error s → s ≠ 404 →
      processRepo env fuel ta acc repo =
        { acc with errors :=
          { acc.errors with accessErrors := acc.errors.accessErrors ++ [repo.full_name] } }) ∧
    (List.foldl (processRepo env fuel ta) acc (repo :: rest) =
      List.foldl (processRepo env fuel ta) (processRepo env fuel ta acc repo) rest) := by
  refine ⟨fun hb => ?_, fun hb hl => ?_, fun hb hl hs => ?_, rfl⟩
  · simp [processRepo, hb]
  · simp [processRepo, hb, hl]
  · have hs' : (s == 404) = false := beq_eq_false_iff_ne.mpr hs
    simp [processRepo, hb, hl, hs']

/-- Witness for C8: in `envErrors`, a broken entry goes to `scanErrors`, the
404 repository `acme/lib` leaves the aggregate untouched, and the 403
repository `acme/priv` goes to `accessErrors` exactly once. -/
theorem walker_repo_error_buckets_witness :
    (processRepo envErrors 1 "t/a" (initResults "acme" "t/a" "T0") ⟨"acme/bad", true⟩ =
      { initResults "acme" "t/a" "T0" with errors := ⟨[], ["acme/bad"]⟩ }) ∧
    (processRepo envErrors 1 "t/a" (initResults "acme" "t/a" "T0") ⟨"acme/lib", false⟩ =
      initResults "acme" "t/a" "T0") ∧
    (processRepo envErrors 1 "t/a" (initResults "acme" "t/a" "T0") ⟨"acme/priv", false⟩ =
      { initResults "acme" "t/a" "T0" with errors := ⟨["acme/priv"], []⟩ }) :=
  ⟨(walker_repo_error_buckets envErrors 1 "t/a" (initResults "acme" "t/a" "T0")
      ⟨"acme/bad", true⟩ 403 []).1 rfl,
   (walker_repo_error_buckets envErrors 1 "t/a" (initResults "acme" "t/a" "T0")
      ⟨"acme/lib", false⟩ 403 []).2.1 rfl rfl,
   (walker_repo_error_buckets envErrors 1 "t/a" (initResults "acme" "t/a" "T0")
      ⟨"acme/priv", false⟩ 403 []).2.2.1 rfl rfl (by decide)⟩

theorem foldl_setTime {β : Type} (t : String) (g : ScanResults → β → ScanResults)
    (hg : ∀ a b, g (setTime t a) b = setTime t (g a b)) :
    ∀ (l : List β) (a : ScanResults),
      List.foldl g (setTime t a) l = setTime t (List.foldl g a l) := by
  intro l
  induction l with
  | nil => intro a; rfl
  | cons b bs ih =>
    intro a
    rw [List.foldl_cons, hg, ih, List.foldl_cons]

theorem mergeIndirect_setTime (t fn p : String) (a : ScanResults) (ia : String) :
    mergeIndirect fn p (setTime t a) ia = setTime t (mergeIndirect fn p a ia) := rfl

theorem directUpdate_setTime (t fn p : String) (a : ScanResults) :
    directUpdate fn p (setTime t a) = setTime t (directUpdate fn p a) := rfl

theorem processEntry_setTime (env : Env) (fuel : Nat) (ta fn t : String)
    (acc : ScanResults) (e : FileEntry) :
    processEntry env fuel ta fn (setTime t acc) e =
      setTime t (processEntry env fuel ta fn acc e) := by
  simp only [processEntry]
  cases hy : endsWithStr ".yml" e.name || endsWithStr ".yaml" e.name
  · simp [hy]
  · simp only [hy]
    cases hd : (scanWorkflowFile env fuel ta fn e.path).direct
    · simp only [hd, Bool.false_eq_true, if_false]
      exact foldl_setTime t _ (fun a b => mergeIndirect_setTime t fn e.path a b) _ _
    · simp only [hd, if_true]
      rw [directUpdate_setTime]
      exact foldl_setTime t _ (fun a b => mergeIndirect_setTime t fn e.path a b) _ _

theorem processRepo_setTime (env : Env) (fuel : Nat) (ta t : String)
    (acc : ScanResults) (repo : Repo) :
    processRepo env fuel ta (setTime t acc) repo =
      setTime t (processRepo env fuel ta acc repo) := by
  simp only [processRepo]
  cases hb : repo.broken
  · simp only [hb, Bool.false_eq_true, if_false]
    cases hl : env.listWorkflows repo.full_name with
    | error s =>
      cases h4 : s == 404
      · simp only [h4, Bool.false_eq_true, if_false]
        rfl
      · simp only [h4, if_true]
    | ok entries =>
      exact foldl_setTime t _ (fun a b => processEntry_setTime env fuel ta
        repo.full_name t a b) entries acc
  · simp only [hb, if_true]
    rfl

theorem pageUpdate_setTime (t : String) (page : Nat) (r : ScanResults) :
    pageUpdate page (setTime t r) = setTime t (pageUpdate page r) := rfl

theorem scanLoop_setTime (env : Env) (mf : Nat) (ta t : String) :
    ∀ (f page : Nat) (acc : ScanResults),
      scanLoop env mf ta f page (setTime t acc) =
        ((scanLoop env mf ta f page acc).1.map (setTime t),
          (scanLoop env mf ta f page acc).2) := by
  intro f
  induction f with
  | zero => intro page acc; rfl
  | succ f ih =>
    intro page acc
    simp only [scanLoop]
    cases h : env.repoPage page with
    | error s => rfl
    | ok repos =>
      cases he : repos.isEmpty
      · simp only [he, Bool.false_eq_true, if_false]
        rw [foldl_setTime t _ (fun a b => processRepo_setTime env mf ta t a b),
          pageUpdate_setTime, ih]
      · simp only [he, if_true]
        rfl

/-- Claim C10: two runs of the Organization Walker over the same environment
(identical responses from the GitHub API) produce reports that agree on every
field — in particular all six summary counts — and differ at most in the
`timestamp` field. -/
theorem scan_deterministic_modulo_timestamp
    (env : Env) (fuel : Nat) (orgName targetAction t1 t2 : String) :
    scanOrganization env fuel orgName targetAction t1 =
      (scanOrganization env fuel orgName targetAction t2).map (setTime t1) := by
  have hinit : initResults orgName targetAction t1 =
      setTime t1 (initResults orgName targetAction t2) := rfl
  simp only [scanOrganization, hinit,
    scanLoop_setTime env fuel targetAction t1 fuel 1]
  cases hr : (scanLoop env fuel targetAction fuel 1
      (initResults orgName targetAction t2)).1 with
  | none => rfl
  | some r => rfl

end SearchActionsInOrg
